import Mathlib

/-!
Verification of the rdmo generic instrument search plugin core against its
natural-language specification.

The Python modules under `rdmo_generic_instrument_search/` are shallowly
embedded: JSON documents become the inductive `JValue` tree, Python dicts
become association lists that keep insertion order, network / filesystem
effects become explicit outcome values passed to the embedded functions, and
the third-party `jmespath.search` evaluator is an abstract function
parameter (the repository only calls it through `_eval_jmespath`, which maps
any evaluation error to `None`).
-/

set_option autoImplicit false

namespace GenericSearch

/-- A JSON-like document tree: the universal currency between the source
client, the path evaluator and the field mapper (`Document` in the spec).
Numbers are modelled as integers; no claim involves fractional values.
Python `None` and JSON `null` are both `JValue.null`. -/
inductive JValue where
  | null : JValue
  | bool : Bool → JValue
  | num : Int → JValue
  | str : String → JValue
  | arr : List JValue → JValue
  | obj : List (String × JValue) → JValue
  deriving Repr

/-- Python truthiness of a JSON value (`bool(v)`). -/
def js_truthy : JValue → Bool
  | .null => false
  | .bool b => b
  | .num n => !(n == 0)
  | .str s => !(s == "")
  | .arr xs => !xs.isEmpty
  | .obj fs => !fs.isEmpty

/-! ## Field Mapper — `handlers/parser.py` -/

/-- The meaningfulness test used throughout `parser.py`:
`v not in (None, "", [], {})`.  Zero and `false` are meaningful. -/
def is_meaningful : JValue → Bool
  | .null => false
  | .str s => !(s == "")
  | .arr xs => !xs.isEmpty
  | .obj fs => !fs.isEmpty
  | _ => true

/-- `_first_meaningful` from `parser.py`: for a list, the first element that
is meaningful (Python `item not in (None, "", [], {})`), else `None`;
non-list values pass through unchanged. -/
def first_meaningful : JValue → JValue
  | .arr xs =>
    match xs.find? is_meaningful with
    | some x => x
    | none => .null
  | v => v

/-- `_render` from `parser.py`: `expr.format(**context)` with context
`{"lang": lang}`; a formatting failure leaves the expression unchanged.  For
the mapping expressions used by this plugin (whose only placeholder is
`{lang}`) Python `str.format` coincides with plain placeholder replacement,
which is how it is modelled here; with no context the expression is
returned unchanged. -/
def render (expr : String) (context : Option String) : String :=
  match context with
  | none => expr
  | some lang => expr.replace "{lang}" lang

/-- Worker for Python `str.split(sep)`: scan the character list left to
right, cutting at every non-overlapping occurrence of the separator.  The
fuel argument (seeded with one more than the string length, which every
step decreases) only makes the recursion structural. -/
def py_split_aux (sep : List Char) : Nat → List Char → List Char → List (List Char)
  | _, [], acc => [acc.reverse]
  | 0, rest, acc => [acc.reverse ++ rest]
  | fuel + 1, c :: rest, acc =>
    if sep.isPrefixOf (c :: rest) then
      acc.reverse :: py_split_aux sep fuel ((c :: rest).drop sep.length) []
    else py_split_aux sep fuel rest (c :: acc)

/-- Python `s.split(sep)` for a non-empty separator. -/
def py_split (s sep : String) : List String :=
  (py_split_aux sep.data (s.data.length + 1) s.data []).map String.mk

/-- Python `s.strip()`: drop whitespace from both ends. -/
def py_strip (s : String) : String :=
  ⟨((s.data.dropWhile Char.isWhitespace).reverse.dropWhile Char.isWhitespace).reverse⟩

/-- Python `s.endswith(suffix)`. -/
def py_ends_with (s suffix : String) : Bool :=
  suffix.data.isSuffixOf s.data

/-- Split a raw mapping key on `||` into trimmed, non-empty fallback
candidates (`parser.py` line 58). -/
def split_candidates (raw_key : String) : List String :=
  ((py_split raw_key "||").map py_strip).filter (fun s => !(s == ""))

/-- The per-candidate value of the fallback loop (`parser.py` lines 62-66):
render the candidate, evaluate it via the abstract `search` evaluator, and
collapse a list result to its first meaningful element unless the candidate
expression ends in `[]`. -/
def candidate_value (search : String → JValue → JValue) (data : JValue)
    (context : Option String) (cand : String) : JValue :=
  if py_ends_with cand "[]" then search (render cand context) data
  else first_meaningful (search (render cand context) data)

/-- The fallback loop of `map_jamespath_to_attribute_uri` (`parser.py`
lines 60-69): try the candidates in order and stop at the first whose
value is meaningful; `None` if no candidate produces one. -/
def pick_candidate (search : String → JValue → JValue) (data : JValue)
    (context : Option String) : List String → JValue
  | [] => .null
  | cand :: rest =>
    if is_meaningful (candidate_value search data context cand) then
      candidate_value search data context cand
    else pick_candidate search data context rest

/-- `map_jamespath_to_attribute_uri` from `parser.py`: evaluate every
configured mapping entry `(raw_key, attribute_uri)` against the document and
always emit the attribute uri, with `None` as explicit absence.  The
third-party JMESPath evaluator (wrapped by `_eval_jmespath`, which turns
exceptions into `None`) is the abstract `search` parameter. -/
def map_jamespath_to_attribute_uri (search : String → JValue → JValue)
    (attribute_mapping : List (String × String)) (data : JValue)
    (context : Option String) : List (String × JValue) :=
  attribute_mapping.map (fun p =>
    (p.2, pick_candidate search data context (split_candidates p.1)))

/-! ## Python-dict association maps (insertion order, last write wins) -/

/-- Look up a key in a Python-dict-like association list. -/
def dict_find (doc : List (String × JValue)) (k : String) : Option JValue :=
  (doc.find? (fun p => p.1 == k)).map (fun p => p.2)

/-- `d[k] = v` on a Python dict: overwrite in place when the key exists
(keeping its position), otherwise append the new entry. -/
def dict_set (doc : List (String × JValue)) (k : String) (v : JValue) :
    List (String × JValue) :=
  if doc.any (fun p => p.1 == k) then
    doc.map (fun p => if p.1 == k then (k, v) else p)
  else doc ++ [(k, v)]

/-- `doc.get("included", [])` followed by a `[*...]` splat
(`recipe.py` lines 261 and 265): the stored list, or `[]` when the key is
missing.  The splat requires an iterable; it is modelled for list values,
the only shape the recipes produce for the `included` side-car. -/
def get_included (doc : List (String × JValue)) : List JValue :=
  match dict_find doc "included" with
  | some (.arr xs) => xs
  | _ => []

/-- Splat `[*v]` of the own value of a part (`recipe.py` line 265), modelled for
list values. -/
def jlist : JValue → List JValue
  | .arr xs => xs
  | _ => []

/-! ## Detail fetch-step merging — `providers/recipe.py` `detail` -/

/-- One configured detail fetch step (`FetchStep` dataclass in
`recipe.py`).  The URL template is kept abstract: `url.format(base_url=...,
id=...)` is folded into the abstract fetch function. -/
structure FetchStep where
  url : String
  merge_included : Bool := false
  assign : Option String := none

/-- Merge one fetched part into the accumulating detail document
(`recipe.py` lines 252-267, the normal multi-step branch of `detail`):

* with `assign`, store the whole part under that key;
* otherwise, when `merge_included` is set, first concatenate the `included`
  list of the part onto that of the document;
* then copy every top-level key of the part into the document, where an
  `included` key of a step *without* `merge_included` is concatenated
  instead of copied. -/
def merge_step_part (step : FetchStep) (doc part : List (String × JValue)) :
    List (String × JValue) :=
  match step.assign with
  | some key => dict_set doc key (.obj part)
  | none =>
    let doc :=
      if step.merge_included then
        dict_set doc "included" (.arr (get_included doc ++ get_included part))
      else doc
    part.foldl
      (fun d p =>
        if p.1 == "included" && !step.merge_included then
          dict_set d "included" (.arr (get_included d ++ jlist p.2))
        else dict_set d p.1 p.2)
      doc

/-- The fetch-step loop of `InstrumentSearchProvider.detail` (`recipe.py`
lines 250-267): execute the steps in order against one accumulating
document, starting from `{}`.  `fetch` stands for
`fetch_json(step.url.format(...)) or {}`, restricted to object results as
the recipes require. -/
def detail_steps (fetch : String → List (String × JValue))
    (steps : List FetchStep) : List (String × JValue) :=
  steps.foldl (fun doc step => merge_step_part step doc (fetch step.url)) []

/-! ## Transform chain — `recipe.py` lines 269-277, `from_static.py` 149-156 -/

/-- Outcome of calling one transform function: a returned document, or a
raised exception. -/
inductive TransformResult where
  | ok : JValue → TransformResult
  | raises : TransformResult

/-- One iteration of the transform loop: `doc = fn(doc, **kwargs) or doc`
inside `try/except` — a raising transform is caught and skipped, and a
falsy result also leaves the document unchanged (Python `or`). -/
def apply_transform (doc : JValue) (t : JValue → TransformResult) : JValue :=
  match t doc with
  | .ok d => if js_truthy d then d else doc
  | .raises => doc

/-- The ordered transform chain applied after the fetch steps. -/
def apply_transforms (ts : List (JValue → TransformResult)) (doc : JValue) :
    JValue :=
  ts.foldl apply_transform doc

/-! ## Search Aggregator — `providers/meta.py` `get_options` -/

/-- One `{id, text}` option as produced by a provider. -/
structure SearchOption where
  id : String
  text : String
  deriving Repr, DecidableEq

/-- Merge the option list of one completed provider into the running results
(`meta.py` lines 89-95): an option is appended only when its id is truthy
and not yet seen; its id is then recorded. -/
def add_options (opts : List SearchOption)
    (acc : List SearchOption × List String) :
    List SearchOption × List String :=
  opts.foldl
    (fun acc opt =>
      if opt.id ≠ "" ∧ opt.id ∉ acc.2 then
        (acc.1 ++ [opt], opt.id :: acc.2)
      else acc)
    acc

/-- The completion loop of `GenericSearchProvider.get_options` (`meta.py`
lines 80-104) over an arbitrary completion order: provider result lists are
merged as they complete, dedup by id, and when a configured `max_total_hits`
cap is reached after a completion the remaining completions are cancelled
(their results discarded). -/
def merge_completions (cap : Option Nat) :
    List (List SearchOption) → List SearchOption × List String →
    List SearchOption × List String
  | [], acc => acc
  | opts :: rest, acc =>
    let acc := add_options opts acc
    match cap with
    | some c => if c ≤ acc.1.length then acc else merge_completions cap rest acc
    | none => merge_completions cap rest acc

/-- The merged, deduplicated result list of one aggregated search, given the
option lists of the providers in completion order. -/
def get_options_merged (cap : Option Nat)
    (completions : List (List SearchOption)) : List SearchOption :=
  (merge_completions cap completions ([], [])).1

/-! ## Source Client — `client.py` -/

/-- The error-shaped document `{"errors": [message]}` produced by the
source client on failure. -/
def error_doc (msg : String) : JValue :=
  .obj [("errors", .arr [.str msg])]

/-- Outcome of the filesystem access made by `_load_local_json`: a parsed document,
`FileNotFoundError`, `json.JSONDecodeError` (with its message), or another
`OSError` (with its message). -/
inductive LocalOutcome where
  | ok : JValue → LocalOutcome
  | missingFile : LocalOutcome
  | malformedJson : String → LocalOutcome
  | readError : String → LocalOutcome

/-- Outcome of an HTTP request via `requests`: a parsed body, or a
`requests.exceptions.RequestException` (network error, timeout, non-2xx via
`raise_for_status`, or a malformed JSON body — `Response.json` raises the
`RequestException` subclass `JSONDecodeError`). -/
inductive HttpOutcome where
  | ok : JValue → HttpOutcome
  | requestFailed : String → HttpOutcome

/-- A fetch request as `fetch_json` dispatches it after `urlparse`
(`client.py` lines 29-53), together with the outcome the outside world
produces for it: a `static://` asset (whose staticfiles resolution may
itself error), a `file://` url, a bare local path, or HTTP(S). -/
inductive FetchRequest where
  | staticAsset : Option String → LocalOutcome → FetchRequest
  | fileScheme : LocalOutcome → FetchRequest
  | bare : LocalOutcome → FetchRequest
  | http : HttpOutcome → FetchRequest

/-- `_load_local_json` (`client.py` lines 68-87): return the parsed data,
and map every caught exception to an error-shaped document. -/
def load_local_json (path : String) (outcome : LocalOutcome) : JValue :=
  match outcome with
  | .ok d => d
  | .missingFile => error_doc ("file not found: " ++ path)
  | .malformedJson e => error_doc ("invalid json: " ++ path ++ ": " ++ e)
  | .readError e => error_doc e

/-- `fetch_json` (`client.py` lines 17-65): empty url yields `{}`;
`static://` resolution errors yield an error document, otherwise the
resolved path is loaded locally; `file://` and bare paths are loaded
locally; HTTP bodies are returned as parsed, with every
`RequestException` mapped to an error document. -/
def fetch_json (url : String) (req : FetchRequest) : JValue :=
  if url == "" then .obj []
  else
    match req with
    | .staticAsset (some resolveErr) _ => error_doc resolveErr
    | .staticAsset none outcome => load_local_json url outcome
    | .fileScheme outcome => load_local_json url outcome
    | .bare outcome => load_local_json url outcome
    | .http (.ok d) => d
    | .http (.requestFailed e) => error_doc e

/-- The parsed document a request would deliver on success (`none` when the
outside world produced a failure). -/
def request_ok_doc : FetchRequest → Option JValue
  | .staticAsset none (.ok d) => some d
  | .fileScheme (.ok d) => some d
  | .bare (.ok d) => some d
  | .http (.ok d) => some d
  | _ => none

/-- A document is error-shaped when it is an object carrying an `errors`
key. -/
def is_error_shaped : JValue → Bool
  | .obj fs => fs.any (fun p => p.1 == "errors")
  | _ => false

/-- `_sparql_post_json` (`client.py` lines 89-111): return the parsed
SPARQL-results body; every `RequestException` (POST failure, timeout,
non-2xx, malformed body) yields the empty document `{}`. -/
def sparql_post_json (endpoint query : String) (outcome : HttpOutcome) :
    JValue :=
  match endpoint, query, outcome with
  | _, _, .ok d => d
  | _, _, .requestFailed _ => .obj []

/-! ## Detail handler — `handlers/generic.py` `GenericDetailHandler.handle` -/

/-- `GenericDetailHandler.handle` after the provider lookup (`generic.py`
lines 42-51): an empty (falsy) detail document or one carrying an `errors`
key short-circuits to `{}`; otherwise the field mapper runs with the
request language as context. -/
def handle (search : String → JValue → JValue)
    (attribute_mapping : List (String × String))
    (doc : List (String × JValue)) (lang : String) :
    List (String × JValue) :=
  if doc.isEmpty then []
  else if doc.any (fun p => p.1 == "errors") then []
  else map_jamespath_to_attribute_uri search attribute_mapping (.obj doc) (some lang)

/-! ## Wikidata Closure Resolver — `providers/transforms/wikidata.py` -/

/-- Field access `v.get(k)` on a JSON object, `None` otherwise (the
wikidata helpers only apply it to dicts, with errors caught). -/
def jget (v : JValue) (k : String) : JValue :=
  match v with
  | .obj fs =>
    match fs.find? (fun p => p.1 == k) with
    | some p => p.2
    | none => .null
  | _ => .null

/-- `_claims_values(entity, pid)` (`wikidata.py` lines 43-54): the ids of
the claim targets `entity.claims[pid][*].mainsnak.datavalue.value.id`,
collecting each truthy id. -/
def claims_values (entity : JValue) (pid : String) : List String :=
  match jget (jget entity "claims") pid with
  | .arr cs =>
    cs.filterMap (fun c =>
      match jget (jget (jget c "mainsnak") "datavalue") "value" with
      | .obj fs =>
        match jget (.obj fs) "id" with
        | .str s => if s == "" then none else some s
        | _ => none
      | _ => none)
  | _ => []

/-- `_parents_p279` (`wikidata.py` line 71): direct subclass-of parents. -/
def parents_p279 (entity : JValue) : List String :=
  claims_values entity "P279"

/-- `cache.get(q) or {}` (`wikidata.py` line 106).  `_ensure_entities`
batch-fetches missing entities into the cache; here the cache is
pre-populated with the whole entity store, making that step the
identity. -/
def cache_get (cache : List (String × JValue)) (q : String) : JValue :=
  match cache.find? (fun p => p.1 == q) with
  | some p => if js_truthy p.2 then p.2 else .obj []
  | none => .obj []

/-- The inner per-frontier loop of `_any_reaches_root_via_p279`
(`wikidata.py` lines 102-114): visit each unvisited frontier id, succeed
when the root is among its `P279` parents, otherwise collect its unvisited
parents into the next frontier (set insertion modelled as
append-if-absent). -/
def process_frontier (cache : List (String × JValue)) (root_qid : String) :
    List String → List String → List String →
    Bool × List String × List String
  | [], visited, nf => (false, nf, visited)
  | q :: rest, visited, nf =>
    if q ∈ visited then process_frontier cache root_qid rest visited nf
    else
      let visited := q :: visited
      let parents := parents_p279 (cache_get cache q)
      if parents.isEmpty then process_frontier cache root_qid rest visited nf
      else if root_qid ∈ parents then (true, nf, visited)
      else
        let nf := parents.foldl
          (fun acc p => if p ∉ visited ∧ p ∉ acc then acc ++ [p] else acc) nf
        process_frontier cache root_qid rest visited nf

/-- The bounded while loop of `_any_reaches_root_via_p279` (`wikidata.py`
lines 91-119): `while frontier and depth <= max_depth` runs at most
`max_depth + 1` frontier expansions, so it is embedded with that much fuel;
exhausted fuel is the loop falling through to `return False`. -/
def reaches_root_loop (cache : List (String × JValue)) (root_qid : String) :
    Nat → List String → List String → Bool
  | 0, _, _ => false
  | fuel + 1, frontier, visited =>
    if frontier.isEmpty then false
    else if root_qid ∈ frontier then true
    else
      match process_frontier cache root_qid frontier visited [] with
      | (true, _, _) => true
      | (false, nf, visited) => reaches_root_loop cache root_qid fuel nf visited

/-- `_any_reaches_root_via_p279` (`wikidata.py` lines 84-119): bounded BFS
up the subclass-of graph from the start ids, with an entity cache standing
for the batch fetches. -/
def any_reaches_root_via_p279 (cache : List (String × JValue))
    (start_qids : List String) (root_qid : String) (max_depth : Nat) : Bool :=
  reaches_root_loop cache root_qid (max_depth + 1) start_qids []

/-- `is_instrument` (`wikidata.py` lines 122-159): a falsy entity is
rejected; otherwise accept when the own id of the entity reaches the root via
`P279`, or, failing that, when any of its `P31` instance-of classes does
(no `P31` claims reject). -/
def is_instrument (cache : List (String × JValue)) (entity : JValue)
    (root_qid : String) (max_depth : Nat) : Bool :=
  if !js_truthy entity then false
  else
    let item_check :=
      match jget entity "id" with
      | .str q =>
        if q == "" then false
        else any_reaches_root_via_p279 cache [q] root_qid max_depth
      | _ => false
    if item_check then true
    else
      let inst_classes := claims_values entity "P31"
      if inst_classes.isEmpty then false
      else any_reaches_root_via_p279 cache inst_classes root_qid max_depth

/-! ## Concrete scenarios used by the testable properties of the spec -/

/-- The two fetch responses of the detail-merge example of the spec:
`fetch(A) = {"title": "x", "included": [1]}` and
`fetch(B) = {"included": [2]}`. -/
def fetchC1 : String → List (String × JValue) := fun u =>
  if u == "A" then [("title", .str "x"), ("included", .arr [.num 1])]
  else if u == "B" then [("included", .arr [.num 2])]
  else []

/-- The detail-merge example steps of the spec:
`[{url: A}, {url: B, mergeIncluded: true}]`. -/
def stepsC1 : List FetchStep := [⟨"A", false, none⟩, ⟨"B", true, none⟩]

/-- A minimal wikidata claim whose `mainsnak.datavalue.value.id` is the
given target id. -/
def claim_of (t : String) : JValue :=
  .obj [("mainsnak", .obj [("datavalue", .obj [("value", .obj [("id", .str t)])])])]

/-- Entity `E1`, `P31`-instance-of `C1`. -/
def entityE1 : JValue :=
  .obj [("id", .str "E1"), ("claims", .obj [("P31", .arr [claim_of "C1"])])]

/-- Class `C1`, `P279`-subclass-of `ROOT`. -/
def entityC1 : JValue :=
  .obj [("id", .str "C1"), ("claims", .obj [("P279", .arr [claim_of "ROOT"])])]

/-- The entity store of the positive closure example of the spec. -/
def cacheC3 : List (String × JValue) := [("E1", entityE1), ("C1", entityC1)]

/-- Entity `Q1`, `P279`-subclass-of `Q2` (half of a subclass cycle). -/
def entityQ1 : JValue :=
  .obj [("id", .str "Q1"), ("claims", .obj [("P279", .arr [claim_of "Q2"])])]

/-- Entity `Q2`, `P279`-subclass-of `Q1` (the other half of the cycle). -/
def entityQ2 : JValue :=
  .obj [("id", .str "Q2"), ("claims", .obj [("P279", .arr [claim_of "Q1"])])]

/-- The cyclic entity store `Q1 → Q2 → Q1` with no edge to `ROOT`. -/
def cacheCyc : List (String × JValue) := [("Q1", entityQ1), ("Q2", entityQ2)]

/-- The options of provider A in the aggregator example of the spec. -/
def optA : List SearchOption := [⟨"x:1", "Widget"⟩]

/-- The options of provider B in the aggregator example of the spec. -/
def optB : List SearchOption := [⟨"x:1", "dup"⟩, ⟨"y:2", "Gadget"⟩]

/-! # Theorems -/

/-- C1 counterexample: on the detail-merge example given by the spec itself — step A plain
with `{"title": "x", "included": [1]}`, step B with `mergeIncluded` set and
`{"included": [2]}` — the `included` list of the merged document is `[2]`, not
the claimed `[1, 2]`: the concatenation is not applied for a step whose
`mergeIncluded` flag is set. -/
theorem C1_counterexample :
    dict_find (detail_steps fetchC1 stepsC1) "included"
      = some (JValue.arr [JValue.num 2]) ∧
    dict_find (detail_steps fetchC1 stepsC1) "included"
      ≠ some (JValue.arr [JValue.num 1, JValue.num 2]) := by
  refine ⟨rfl, ?_⟩
  intro h
  rw [show dict_find (detail_steps fetchC1 stepsC1) "included"
      = some (JValue.arr [JValue.num 2]) from rfl] at h
  simp at h

/-- C1 (amended): on the detail-merge example of the spec the resulting document
is `{"title": "x", "included": [2]}` — the `included` collection is
concatenated only by steps whose `mergeIncluded` flag is unset; a step with
`mergeIncluded` set overwrites `included` with the list of its own part, because
the top-level copy loop clobbers the concatenation computed just before
it. -/
theorem C1_detail_merge_amended :
    detail_steps fetchC1 stepsC1
      = [("title", JValue.str "x"), ("included", JValue.arr [JValue.num 2])] := rfl

/-- C2: for every evaluator, attribute mapping, document and context, the
output of the field mapper contains an entry for the attribute identifier of
every configured mapping entry, even when no fallback candidate produced a
meaningful value. -/
theorem C2_always_emits_attribute
    (search : String → JValue → JValue)
    (attribute_mapping : List (String × String)) (data : JValue)
    (context : Option String) (raw_key attr : String)
    (h : (raw_key, attr) ∈ attribute_mapping) :
    ∃ v, (attr, v) ∈ map_jamespath_to_attribute_uri search attribute_mapping data context := by
  refine ⟨pick_candidate search data context (split_candidates raw_key), ?_⟩
  have := List.mem_map_of_mem
    (fun p : String × String =>
      (p.2, pick_candidate search data context (split_candidates p.1))) h
  exact this

/-- C2 witness: a mapping entry whose only candidate evaluates to nothing
meaningful still yields an (explicitly absent) entry for its attribute. -/
theorem C2_always_emits_attribute_witness :
    ("t || u", "attrX") ∈ [("t || u", "attrX")] ∧
    ∃ v, ("attrX", v) ∈ map_jamespath_to_attribute_uri
      (fun _ _ => JValue.null) [("t || u", "attrX")] JValue.null none :=
  ⟨by simp,
   C2_always_emits_attribute (fun _ _ => JValue.null) [("t || u", "attrX")]
     JValue.null none "t || u" "attrX" (by simp)⟩

/-- C5: for every endpoint, query and failure message, the SPARQL POST
primitive returns the empty document `{}` on failure, which is not
error-shaped — asymmetric with the `{"errors": [...]}` shape of `fetch_json`. -/
theorem C5_sparql_failure_empty (endpoint query msg : String) :
    sparql_post_json endpoint query (.requestFailed msg) = JValue.obj [] ∧
    is_error_shaped (sparql_post_json endpoint query (.requestFailed msg)) = false :=
  ⟨rfl, rfl⟩

/-- A raising transform leaves the document unchanged. -/
theorem apply_transform_raises (t : JValue → TransformResult) (d : JValue)
    (h : t d = TransformResult.raises) : apply_transform d t = d := by
  unfold apply_transform
  rw [h]

/-- C9: a transform that raises is caught and skipped — the document carried
into the remaining transforms is the last successfully-produced one, and
those transforms still run. -/
theorem C9_transform_failure_skipped
    (ts1 ts2 : List (JValue → TransformResult))
    (t : JValue → TransformResult) (doc : JValue)
    (h : t (apply_transforms ts1 doc) = TransformResult.raises) :
    apply_transforms (ts1 ++ t :: ts2) doc
      = apply_transforms ts2 (apply_transforms ts1 doc) := by
  unfold apply_transforms
  rw [List.foldl_append]
  show List.foldl apply_transform
      (apply_transform (List.foldl apply_transform doc ts1) t) ts2 = _
  rw [apply_transform_raises t (List.foldl apply_transform doc ts1) h]

/-- C9 witness: with one raising transform followed by one succeeding
transform, the raiser is skipped and the successor still runs. -/
theorem C9_transform_failure_skipped_witness :
    (fun _ : JValue => TransformResult.raises) (apply_transforms [] (JValue.obj []))
      = TransformResult.raises ∧
    apply_transforms
        ([] ++ (fun _ : JValue => TransformResult.raises)
          :: [fun _ : JValue => TransformResult.ok (JValue.str "y")])
        (JValue.obj [])
      = apply_transforms [fun _ : JValue => TransformResult.ok (JValue.str "y")]
          (apply_transforms [] (JValue.obj [])) :=
  ⟨rfl,
   C9_transform_failure_skipped [] [fun _ => TransformResult.ok (JValue.str "y")]
     (fun _ => TransformResult.raises) (JValue.obj []) rfl⟩

/-- C10: when the detail document of the provider is empty or carries an
`errors` key, the detail handler returns a completely empty attribute map —
no configured mapping key appears and the field-mapping step never
contributes. -/
theorem C10_error_detail_empty_map
    (search : String → JValue → JValue)
    (attribute_mapping : List (String × String))
    (doc : List (String × JValue)) (lang : String)
    (h : doc.isEmpty = true ∨ doc.any (fun p => p.1 == "errors") = true) :
    handle search attribute_mapping doc lang = [] := by
  unfold handle
  rcases h with h | h
  · simp [h]
  · by_cases h1 : doc.isEmpty = true
    · simp [h1]
    · simp [h1, h]

/-- C10 witness: an error-shaped detail document yields an empty attribute
map even though a mapping is configured. -/
theorem C10_error_detail_empty_map_witness :
    (([("errors", JValue.arr [JValue.str "boom"])] :
        List (String × JValue)).isEmpty = true ∨
      ([("errors", JValue.arr [JValue.str "boom"])] :
        List (String × JValue)).any (fun p => p.1 == "errors") = true) ∧
    handle (fun _ _ => JValue.null) [("m", "u")]
      [("errors", JValue.arr [JValue.str "boom"])] "en" = [] :=
  ⟨Or.inr rfl,
   C10_error_detail_empty_map (fun _ _ => JValue.null) [("m", "u")]
     [("errors", JValue.arr [JValue.str "boom"])] "en" (Or.inr rfl)⟩

/-- C4: for every url and every outside-world outcome, `fetch_json` returns
either the parsed JSON document the outcome delivered (or `{}` for an empty
url), or an error-shaped document `{"errors": [message]}`; every failure
mode — missing file, malformed JSON, read error, network error, non-2xx —
lands in the error-shaped case.  Exceptions are modelled as outcome values,
so the embedded function is total: it never raises. -/
theorem C4_fetch_total_shape (url : String) (req : FetchRequest) :
    (∃ msg, fetch_json url req = error_doc msg) ∨
    (∃ d, request_ok_doc req = some d ∧ fetch_json url req = d) ∨
    fetch_json url req = JValue.obj [] := by
  cases hu : url == "" with
  | true =>
    right; right
    unfold fetch_json
    rw [hu]
    rfl
  | false =>
    have unfolds : fetch_json url req = (match req with
      | .staticAsset (some resolveErr) _ => error_doc resolveErr
      | .staticAsset none outcome => load_local_json url outcome
      | .fileScheme outcome => load_local_json url outcome
      | .bare outcome => load_local_json url outcome
      | .http (.ok d) => d
      | .http (.requestFailed e) => error_doc e) := by
      unfold fetch_json
      rw [hu]
      rfl
    rcases req with ⟨r, o⟩ | o | o | o
    · rcases r with _ | e
      · rcases o with d | _ | e | e
        · exact Or.inr (Or.inl ⟨d, rfl, unfolds⟩)
        · exact Or.inl ⟨"file not found: " ++ url, unfolds⟩
        · exact Or.inl ⟨"invalid json: " ++ url ++ ": " ++ e, unfolds⟩
        · exact Or.inl ⟨e, unfolds⟩
      · exact Or.inl ⟨e, unfolds⟩
    · rcases o with d | _ | e | e
      · exact Or.inr (Or.inl ⟨d, rfl, unfolds⟩)
      · exact Or.inl ⟨"file not found: " ++ url, unfolds⟩
      · exact Or.inl ⟨"invalid json: " ++ url ++ ": " ++ e, unfolds⟩
      · exact Or.inl ⟨e, unfolds⟩
    · rcases o with d | _ | e | e
      · exact Or.inr (Or.inl ⟨d, rfl, unfolds⟩)
      · exact Or.inl ⟨"file not found: " ++ url, unfolds⟩
      · exact Or.inl ⟨"invalid json: " ++ url ++ ": " ++ e, unfolds⟩
      · exact Or.inl ⟨e, unfolds⟩
    · rcases o with d | e
      · exact Or.inr (Or.inl ⟨d, rfl, unfolds⟩)
      · exact Or.inl ⟨e, unfolds⟩

/-- An empty frontier makes the bounded BFS loop return false for any
remaining fuel. -/
theorem reaches_root_loop_nil (cache : List (String × JValue))
    (root_qid : String) (fuel : Nat) (visited : List String) :
    reaches_root_loop cache root_qid fuel [] visited = false := by
  cases fuel with
  | zero => rfl
  | succ n => rfl

/-- In the positive closure example, the subclass chain starting from the
item id `E1` itself never reaches the root (E1 has no `P279` claims). -/
theorem item_loop_E1 (d : Nat) :
    any_reaches_root_via_p279 cacheC3 ["E1"] "ROOT" d = false := by
  have h : any_reaches_root_via_p279 cacheC3 ["E1"] "ROOT" d
      = reaches_root_loop cacheC3 "ROOT" d [] ["E1"] := rfl
  rw [h, reaches_root_loop_nil]

/-- In the cyclic example, the closure from `Q1` explores `Q2`, refuses to
revisit `Q1`, exhausts the frontier and returns false for every depth
bound. -/
theorem cyc_loop_Q1 (d : Nat) :
    any_reaches_root_via_p279 cacheCyc ["Q1"] "ROOT" d = false := by
  have h : any_reaches_root_via_p279 cacheCyc ["Q1"] "ROOT" d
      = reaches_root_loop cacheCyc "ROOT" d ["Q2"] ["Q1"] := rfl
  rw [h]
  cases d with
  | zero => rfl
  | succ k =>
    have h2 : reaches_root_loop cacheCyc "ROOT" (k + 1) ["Q2"] ["Q1"]
        = reaches_root_loop cacheCyc "ROOT" k [] ["Q2", "Q1"] := rfl
    rw [h2, reaches_root_loop_nil]

/-- C3: with entity `E1` `P31`-instance-of `C1` and `C1` `P279`-subclass-of
`ROOT`, `is_instrument` accepts `E1` for every `max_depth ≥ 1`; and on the
cyclic subclass graph `Q1 → Q2 → Q1` with no edge to `ROOT`, the (fuel-
bounded, hence terminating) closure rejects `Q1` at the same depth. -/
theorem C3_wikidata_closure (d : Nat) (_h : 1 ≤ d) :
    is_instrument cacheC3 entityE1 "ROOT" d = true ∧
    is_instrument cacheCyc entityQ1 "ROOT" d = false := by
  constructor
  · have hstep : is_instrument cacheC3 entityE1 "ROOT" d
        = (if any_reaches_root_via_p279 cacheC3 ["E1"] "ROOT" d = true then true
           else any_reaches_root_via_p279 cacheC3 ["C1"] "ROOT" d) := rfl
    rw [hstep, item_loop_E1 d]
    simp only [Bool.false_eq_true, if_false]
    rfl
  · have hstep : is_instrument cacheCyc entityQ1 "ROOT" d
        = (if any_reaches_root_via_p279 cacheCyc ["Q1"] "ROOT" d = true then true
           else false) := rfl
    rw [hstep, cyc_loop_Q1 d]
    simp

/-- C3 witness: the positive and the cyclic closure examples at the default
depth bound 5 used by the code. -/
theorem C3_wikidata_closure_witness :
    1 ≤ 5 ∧
    (is_instrument cacheC3 entityE1 "ROOT" 5 = true ∧
     is_instrument cacheCyc entityQ1 "ROOT" 5 = false) :=
  ⟨by decide, C3_wikidata_closure 5 (by decide)⟩

/-- C6: for a mapping entry `"a||b" : attr` over a document where candidate
`a` evaluates (after first-meaningful collapsing) to nothing meaningful and
candidate `b` evaluates to `"X"`, the field mapper yields `{attr: "X"}` —
fallback candidates are tried in order and evaluation stops at the first
meaningful value. -/
theorem C6_fallback_chain (search : String → JValue → JValue) (data : JValue)
    (attr : String)
    (h1 : is_meaningful (first_meaningful (search "a" data)) = false)
    (h2 : search "b" data = JValue.str "X") :
    map_jamespath_to_attribute_uri search [("a||b", attr)] data none
      = [(attr, JValue.str "X")] := by
  have hmap : map_jamespath_to_attribute_uri search [("a||b", attr)] data none
      = [(attr, pick_candidate search data none ["a", "b"])] := rfl
  have ha : pick_candidate search data none ["a", "b"]
      = (if is_meaningful (first_meaningful (search "a" data)) = true
         then first_meaningful (search "a" data)
         else pick_candidate search data none ["b"]) := rfl
  have hb : pick_candidate search data none ["b"]
      = (if is_meaningful (first_meaningful (search "b" data)) = true
         then first_meaningful (search "b" data)
         else JValue.null) := rfl
  rw [hmap, ha, h1, hb, h2]
  simp only [Bool.false_eq_true, if_false]
  rfl

/-- C6 witness: candidate `a` yields an empty list, candidate `b` yields
`"X"`; the mapper emits `"X"`. -/
theorem C6_fallback_chain_witness :
    is_meaningful (first_meaningful
      ((fun e _ => if e == "a" then JValue.arr [] else JValue.str "X")
        "a" (JValue.obj []))) = false ∧
    (fun e _ => if e == "a" then JValue.arr [] else JValue.str "X")
        "b" (JValue.obj []) = JValue.str "X" ∧
    map_jamespath_to_attribute_uri
      (fun e _ => if e == "a" then JValue.arr [] else JValue.str "X")
      [("a||b", "attr")] (JValue.obj []) none = [("attr", JValue.str "X")] :=
  ⟨rfl, rfl,
   C6_fallback_chain (fun e _ => if e == "a" then JValue.arr [] else JValue.str "X")
     (JValue.obj []) "attr" rfl rfl⟩

/-- C7: a single-candidate mapping entry whose expression does not end in
`[]` collapses a list result to its first meaningful element (explicit
absence when none exists); a trailing-`[]` candidate preserves a non-empty
list result unchanged; and meaningful means not null, not empty string, not
empty list, not empty object, while the scalars `0` and `false` are
meaningful and pass through collapsing unchanged. -/
theorem C7_list_collapse :
    (∀ (search : String → JValue → JValue) (data : JValue)
        (attr raw : String) (ctx : Option String) (xs : List JValue),
        split_candidates raw = [raw] →
        py_ends_with raw "[]" = false →
        search (render raw ctx) data = JValue.arr xs →
        map_jamespath_to_attribute_uri search [(raw, attr)] data ctx
          = [(attr, (xs.find? is_meaningful).getD JValue.null)]) ∧
    (∀ (search : String → JValue → JValue) (data : JValue)
        (attr raw : String) (ctx : Option String) (xs : List JValue),
        split_candidates raw = [raw] →
        py_ends_with raw "[]" = true →
        search (render raw ctx) data = JValue.arr xs →
        xs ≠ [] →
        map_jamespath_to_attribute_uri search [(raw, attr)] data ctx
          = [(attr, JValue.arr xs)]) ∧
    is_meaningful JValue.null = false ∧
    is_meaningful (JValue.str "") = false ∧
    is_meaningful (JValue.arr []) = false ∧
    is_meaningful (JValue.obj []) = false ∧
    is_meaningful (JValue.num 0) = true ∧
    is_meaningful (JValue.bool false) = true ∧
    first_meaningful (JValue.num 0) = JValue.num 0 ∧
    first_meaningful (JValue.bool false) = JValue.bool false ∧
    first_meaningful (JValue.arr [JValue.num 0, JValue.str "y"]) = JValue.num 0 := by
  refine ⟨?_, ?_, rfl, rfl, rfl, rfl, rfl, rfl, rfl, rfl, rfl⟩
  · intro search data attr raw ctx xs hsplit hends hv
    have hmap : map_jamespath_to_attribute_uri search [(raw, attr)] data ctx
        = [(attr, pick_candidate search data ctx (split_candidates raw))] := rfl
    rw [hmap, hsplit]
    have hpick : pick_candidate search data ctx [raw]
        = (if is_meaningful (candidate_value search data ctx raw) = true then
            candidate_value search data ctx raw
           else JValue.null) := rfl
    rw [hpick]
    have hcv : candidate_value search data ctx raw
        = first_meaningful (JValue.arr xs) := by
      unfold candidate_value
      rw [hends, hv]
      simp
    rw [hcv]
    cases hfind : xs.find? is_meaningful with
    | some x =>
      have hx : is_meaningful x = true := List.find?_some hfind
      have hfm : first_meaningful (JValue.arr xs) = x := by
        simp only [first_meaningful]
        rw [hfind]
      rw [hfm, hx]
      simp
    | none =>
      have hfm : first_meaningful (JValue.arr xs) = JValue.null := by
        simp only [first_meaningful]
        rw [hfind]
      rw [hfm]
      simp [is_meaningful]
  · intro search data attr raw ctx xs hsplit hends hv hne
    have hmap : map_jamespath_to_attribute_uri search [(raw, attr)] data ctx
        = [(attr, pick_candidate search data ctx (split_candidates raw))] := rfl
    rw [hmap, hsplit]
    have hpick : pick_candidate search data ctx [raw]
        = (if is_meaningful (candidate_value search data ctx raw) = true then
            candidate_value search data ctx raw
           else JValue.null) := rfl
    rw [hpick]
    have hcv : candidate_value search data ctx raw = JValue.arr xs := by
      unfold candidate_value
      rw [hends, hv]
      simp
    rw [hcv]
    have hmean : is_meaningful (JValue.arr xs) = true := by
      cases xs with
      | nil => exact absurd rfl hne
      | cons a as => rfl
    rw [hmean]
    simp

/-- C7 witness: a scalar-valued candidate collapses `[null, "", 0, "y"]` to
the meaningful `0`, and a trailing-`[]` candidate keeps `[1, 2]` intact. -/
theorem C7_list_collapse_witness :
    (split_candidates "c" = ["c"] ∧ py_ends_with "c" "[]" = false ∧
      (fun _ _ => JValue.arr [JValue.null, JValue.str "", JValue.num 0, JValue.str "y"])
        (render "c" none) (JValue.obj [])
        = JValue.arr [JValue.null, JValue.str "", JValue.num 0, JValue.str "y"] ∧
      map_jamespath_to_attribute_uri
        (fun _ _ => JValue.arr [JValue.null, JValue.str "", JValue.num 0, JValue.str "y"])
        [("c", "u")] (JValue.obj []) none = [("u", JValue.num 0)]) ∧
    (split_candidates "c[]" = ["c[]"] ∧ py_ends_with "c[]" "[]" = true ∧
      (fun _ _ => JValue.arr [JValue.num 1, JValue.num 2])
        (render "c[]" none) (JValue.obj [])
        = JValue.arr [JValue.num 1, JValue.num 2] ∧
      map_jamespath_to_attribute_uri
        (fun _ _ => JValue.arr [JValue.num 1, JValue.num 2])
        [("c[]", "u")] (JValue.obj []) none
        = [("u", JValue.arr [JValue.num 1, JValue.num 2])]) :=
  ⟨⟨rfl, rfl, rfl,
    C7_list_collapse.1
      (fun _ _ => JValue.arr [JValue.null, JValue.str "", JValue.num 0, JValue.str "y"])
      (JValue.obj []) "u" "c" none
      [JValue.null, JValue.str "", JValue.num 0, JValue.str "y"] rfl rfl rfl⟩,
   ⟨rfl, rfl, rfl,
    C7_list_collapse.2.1
      (fun _ _ => JValue.arr [JValue.num 1, JValue.num 2])
      (JValue.obj []) "u" "c[]" none [JValue.num 1, JValue.num 2] rfl rfl rfl
      (by simp)⟩⟩

/-- The merge invariant of the aggregator: the collected ids are pairwise
distinct, and every collected id has been recorded in the seen set. -/
def merged_invariant (acc : List SearchOption × List String) : Prop :=
  (acc.1.map SearchOption.id).Nodup ∧ ∀ o ∈ acc.1, o.id ∈ acc.2

/-- Merging the options of one completed provider preserves the dedup
invariant of the aggregator. -/
theorem add_options_invariant (opts : List SearchOption)
    (acc : List SearchOption × List String) (h : merged_invariant acc) :
    merged_invariant (add_options opts acc) := by
  induction opts generalizing acc with
  | nil => exact h
  | cons opt rest ih =>
    have hstep : add_options (opt :: rest) acc
        = add_options rest (if opt.id ≠ "" ∧ opt.id ∉ acc.2
            then (acc.1 ++ [opt], opt.id :: acc.2) else acc) := rfl
    rw [hstep]
    apply ih
    by_cases hc : opt.id ≠ "" ∧ opt.id ∉ acc.2
    · rw [if_pos hc]
      obtain ⟨hnd, hmem⟩ := h
      constructor
      · simp only [List.map_append, List.map_cons, List.map_nil]
        refine List.Nodup.append hnd (List.nodup_singleton _) ?_
        intro a ha hb
        rcases List.mem_singleton.1 hb with rfl
        rcases List.mem_map.1 ha with ⟨o, ho, hoid⟩
        exact hc.2 (hoid ▸ hmem o ho)
      · intro o ho
        rcases List.mem_append.1 ho with h1 | h1
        · exact List.mem_cons_of_mem _ (hmem o h1)
        · rcases List.mem_singleton.1 h1 with rfl
          exact List.mem_cons_self _ _
    · rw [if_neg hc]
      exact h

/-- The whole completion loop preserves the dedup invariant of the
aggregator, for any completion order and any configured cap. -/
theorem merge_completions_invariant (cap : Option Nat)
    (completions : List (List SearchOption))
    (acc : List SearchOption × List String) (h : merged_invariant acc) :
    merged_invariant (merge_completions cap completions acc) := by
  induction completions generalizing acc with
  | nil => exact h
  | cons opts rest ih =>
    cases cap with
    | none =>
      have hstep : merge_completions none (opts :: rest) acc
          = merge_completions none rest (add_options opts acc) := rfl
      rw [hstep]
      exact ih _ (add_options_invariant _ _ h)
    | some c =>
      have hstep : merge_completions (some c) (opts :: rest) acc
          = (if c ≤ (add_options opts acc).1.length then add_options opts acc
             else merge_completions (some c) rest (add_options opts acc)) := rfl
      rw [hstep]
      by_cases hcap : c ≤ (add_options opts acc).1.length
      · rw [if_pos hcap]
        exact add_options_invariant _ _ h
      · rw [if_neg hcap]
        exact ih _ (add_options_invariant _ _ h)

/-- C8: for every completion order and cap, the merged result list of the
aggregator has pairwise-distinct ids; and on the example of the spec — provider A with
`[{id: "x:1", text: "Widget"}]`, provider B with `[{id: "x:1", text: "dup"},
{id: "y:2", text: "Gadget"}]` — either completion order yields exactly two
entries, and the text kept for `x:1` comes from whichever provider
completed first. -/
theorem C8_dedup_first_completion_wins :
    (∀ (cap : Option Nat) (completions : List (List SearchOption)),
        ((get_options_merged cap completions).map SearchOption.id).Nodup) ∧
    get_options_merged none [optA, optB]
      = [⟨"x:1", "Widget"⟩, ⟨"y:2", "Gadget"⟩] ∧
    get_options_merged none [optB, optA]
      = [⟨"x:1", "dup"⟩, ⟨"y:2", "Gadget"⟩] := by
  refine ⟨?_, rfl, rfl⟩
  intro cap completions
  exact (merge_completions_invariant cap completions ([], [])
    ⟨List.nodup_nil, by simp⟩).1

end GenericSearch
